import Mathlib

/-!
Shallow embedding of the Agent Oriented Architecture registry core
(`blog2-demo`): the MCP tool registry (`agents/shared/mcp/tool_registry.py`,
`agents/shared/mcp/schemas.py`), the unified agent runtime
(`agents/shared/unified_base_agent.py`), and the A2A registry / router /
orchestrator (`backend/registry/a2a_registry.py`, `backend/registry/models.py`).

Python values carried in payloads, parameters and results are modelled by
`Value`; Python `None` in an `Optional[...]` position is modelled by
`Option.none`.  Python dictionaries keyed by strings are modelled by
association lists with dictionary update (`dictInsert`).  Fallible Python
callables (which may raise) are modelled as functions into `Except String`.
-/

/-- Leaf Python values handled by the embedded operations.  Python `int`,
`float` both map to `num` (rationals stand in for IEEE floats: the registry
only ever forms `1 - d/2`, exact in ℚ).  `bool` is kept separate, but note
that in Python `bool` is a subclass of `int`, which the type checks below
mirror.  `strList` models the string lists appearing in metadata keywords.
Equality models Python `==` on same-typed values (the cross-type numeric
equalities of Python, e.g. `True == 1`, are not needed by any embedded
operation on the inputs considered). -/
inductive Value where
  | str (s : String)
  | num (q : ℚ)
  | bool (b : Bool)
  | strList (ss : List String)
  deriving DecidableEq, Repr

/-- A Python `Dict[str, Any]` as used for tool parameters, payloads and
metadata. -/
abbrev ParamMap := List (String × Value)

/-- Python dict assignment `d[k] = v` on a string-keyed dict: replaces the
binding if the key is present, otherwise appends it (dicts preserve insertion
order). -/
def dictInsert {α : Type _} (d : List (String × α)) (k : String) (v : α) :
    List (String × α) :=
  if d.any (fun kv => kv.1 = k) then
    d.map (fun kv => if kv.1 = k then (k, v) else kv)
  else
    d ++ [(k, v)]

/-- Python substring containment `sub in hay` (on strings). -/
def strIn (sub hay : String) : Bool :=
  (List.range (hay.length + 1)).any fun i => sub.toList.isPrefixOf (hay.toList.drop i)

/-- Python `str.lower()` (ASCII case folding, which is all the embedded
inputs use). -/
def pyLower (s : String) : String :=
  String.mk (s.data.map Char.toLower)

/-- Split a character list at every separator, keeping empty groups (the
splitting discipline shared by Python's `split(sep)`). -/
def splitGroups (isSep : Char → Bool) (cs : List Char) : List (List Char) :=
  cs.foldr
    (fun c acc =>
      if isSep c then [] :: acc
      else
        match acc with
        | g :: gs => (c :: g) :: gs
        | [] => [[c]])
    [[]]

/-- Python `str.split()` with no argument: split on whitespace runs,
discarding empty pieces. -/
def pySplit (s : String) : List String :=
  ((splitGroups Char.isWhitespace s.data).filter (fun g => g ≠ [])).map
    (fun g => String.mk g)

/-- Python `str.split('_')`: split at every underscore, keeping empty
pieces. -/
def pySplitUnder (s : String) : List String :=
  (splitGroups (fun c => c = '_') s.data).map (fun g => String.mk g)

/-- Rough model of Python `str(...)` on an optional value, used only to build
the orchestrator's `result_preview` field (no claim inspects its text). -/
def pyStr : Option Value → String
  | Option.none => "None"
  | Option.some (Value.str s) => s
  | Option.some (Value.num q) => toString q
  | Option.some (Value.bool true) => "True"
  | Option.some (Value.bool false) => "False"
  | Option.some (Value.strList ss) => toString ss

/-! ## MCP schemas (`agents/shared/mcp/schemas.py`) -/

/-- Embeds the `ParameterType` enum. -/
inductive ParameterType where
  | string
  | number
  | boolean
  | object
  | array
  deriving DecidableEq, Repr

/-- Embeds `ToolParameter` (pydantic model).  `default` and `enum` are `Optional`
fields; `required` defaults to `True` at construction sites. -/
structure ToolParameter where
  name : String
  type : ParameterType
  description : String
  required : Bool
  default : Option Value
  enum : Option (List Value)
  deriving DecidableEq, Repr

/-- Embeds `MCPTool` (pydantic model).  `returns` and `examples` are carried but
unused by the embedded operations. -/
structure MCPTool where
  name : String
  description : String
  parameters : List ToolParameter
  returns : ParamMap
  examples : List ParamMap
  deriving DecidableEq, Repr

/-- Embeds `ToolResult` (pydantic model).  An `Optional[...]` field holding Python
`None` is `Option.none` here; a field is "populated" when it is `some`. -/
structure ToolResult where
  success : Bool
  result : Option Value
  error : Option String
  metadata : ParamMap
  deriving DecidableEq, Repr

/-- A tool executor: a (possibly async) Python callable taking the parameter
dict.  It may raise (modelled by `Except.error` carrying `str(e)`) and may
return `None` (modelled by `Except.ok Option.none`). -/
abbrev Executor := ParamMap → Except String (Option Value)

/-! ## MCP tool registry (`agents/shared/mcp/tool_registry.py`)

`register_tool` always stores the tool and its executor under the same key in
the two dicts `self.tools` / `self.executors`, so the registry is modelled as
one association list from tool name to the pair. -/

/-- The `MCPToolRegistry` state: `self.tools` and `self.executors`, which are
populated in lockstep by `register_tool`. -/
structure MCPToolRegistry where
  tools : List (String × (MCPTool × Executor))

/-- Python `isinstance(value, str)`. -/
def Value.isString : Value → Bool
  | Value.str _ => true
  | _ => false

/-- Python `isinstance(value, (int, float))`.  `bool` is a subclass of `int`
in Python, so booleans pass this check. -/
def Value.isNumber : Value → Bool
  | Value.num _ => true
  | Value.bool _ => true
  | _ => false

/-- Python `isinstance(value, bool)`. -/
def Value.isBool : Value → Bool
  | Value.bool _ => true
  | _ => false

/-- The `if/elif/elif` chain of simplified primitive type checks in
`_validate_parameters` ("Type validation (simplified)"): only the three
primitive declared types are checked; `object` and `array` pass.  -/
def typeCheck (param : ToolParameter) (value : Value) : Option String :=
  if param.type = ParameterType.string ∧ ¬ value.isString then
    Option.some ("Parameter '" ++ param.name ++ "' must be a string")
  else if param.type = ParameterType.number ∧ ¬ value.isNumber then
    Option.some ("Parameter '" ++ param.name ++ "' must be a number")
  else if param.type = ParameterType.boolean ∧ ¬ value.isBool then
    Option.some ("Parameter '" ++ param.name ++ "' must be a boolean")
  else Option.none

/-- The enum validation in `_validate_parameters`:
`if param.enum and value not in param.enum` — a `None` or empty enum is falsy
and imposes nothing.  The Python error message interpolates `param.enum` via
`repr`; the embedded message keeps the parameter name, which is all the
claims inspect. -/
def enumCheck (param : ToolParameter) (value : Value) : Option String :=
  match param.enum with
  | Option.some es =>
      if es ≠ [] ∧ ¬ (value ∈ es) then
        Option.some ("Parameter '" ++ param.name ++ "' must be one of the allowed values")
      else Option.none
  | Option.none => Option.none

/-- The body of `MCPToolRegistry._validate_parameters` for one declared
parameter: required-presence check (a declared default is never consulted),
then, for a present value, the type-check chain (whose violation returns
immediately) followed by the enum check. -/
def checkParam (param : ToolParameter) (parameters : ParamMap) : Option String :=
  match parameters.lookup param.name with
  | Option.none =>
      if param.required then Option.some ("Missing required parameter: " ++ param.name)
      else Option.none
  | Option.some value =>
      match typeCheck param value with
      | Option.some e => Option.some e
      | Option.none => enumCheck param value

/-- Embeds `MCPToolRegistry._validate_parameters`: walk the declared parameters in
order and return the first violation, `none` when all pass. -/
def validateParameters : List ToolParameter → ParamMap → Option String
  | [], _ => Option.none
  | p :: ps, parameters =>
      match checkParam p parameters with
      | Option.some e => Option.some e
      | Option.none => validateParameters ps parameters

/-- Embeds `MCPToolRegistry.execute_tool`: unknown tool → failure; validation
violation → failure without consulting the executor; otherwise the executor is
awaited on the caller's parameter dict, its exception (if any) is wrapped as a
failure result, and its return value as a success result. -/
def executeTool (reg : MCPToolRegistry) (tool_name : String) (parameters : ParamMap) :
    ToolResult :=
  match reg.tools.lookup tool_name with
  | Option.none =>
      { success := false, result := Option.none
        error := Option.some ("Tool '" ++ tool_name ++ "' not found"), metadata := [] }
  | Option.some (tool, executor) =>
      match validateParameters tool.parameters parameters with
      | Option.some validation_error =>
          { success := false, result := Option.none
            error := Option.some validation_error, metadata := [] }
      | Option.none =>
          match executor parameters with
          | Except.ok r =>
              { success := true, result := r, error := Option.none
                metadata := [("tool", Value.str tool_name)] }
          | Except.error e =>
              { success := false, result := Option.none, error := Option.some e
                metadata := [("tool", Value.str tool_name)] }

/-- What `checkParam` enforces, stated declaratively: the required flag forces
presence (defaults are not consulted), present values must pass the primitive
type check of their declared type, and must lie in a non-empty declared enum. -/
def paramOk (param : ToolParameter) (parameters : ParamMap) : Prop :=
  match parameters.lookup param.name with
  | Option.none => param.required = false
  | Option.some value =>
      (param.type = ParameterType.string → value.isString) ∧
      (param.type = ParameterType.number → value.isNumber) ∧
      (param.type = ParameterType.boolean → value.isBool) ∧
      (∀ es, param.enum = Option.some es → es ≠ [] → value ∈ es)

theorem typeCheck_eq_none_iff (param : ToolParameter) (value : Value) :
    typeCheck param value = Option.none ↔
      (param.type = ParameterType.string → value.isString) ∧
      (param.type = ParameterType.number → value.isNumber) ∧
      (param.type = ParameterType.boolean → value.isBool) := by
  unfold typeCheck
  cases hty : param.type <;>
    cases hs : value.isString <;> cases hn : value.isNumber <;> cases hb : value.isBool <;>
    simp_all

theorem enumCheck_eq_none_iff (param : ToolParameter) (value : Value) :
    enumCheck param value = Option.none ↔
      (∀ es, param.enum = Option.some es → es ≠ [] → value ∈ es) := by
  unfold enumCheck
  cases hen : param.enum with
  | none => simp
  | some es =>
      by_cases hes : es = [] <;> by_cases hv : value ∈ es <;> simp_all

theorem checkParam_eq_none_iff (param : ToolParameter) (parameters : ParamMap) :
    checkParam param parameters = Option.none ↔ paramOk param parameters := by
  unfold checkParam paramOk
  cases hlk : parameters.lookup param.name with
  | none => cases hreq : param.required <;> simp
  | some value =>
      cases htc : typeCheck param value with
      | some e =>
          simp only [htc]
          constructor
          · intro h; cases h
          · intro ⟨hs, hn, hb, _⟩
            have : typeCheck param value = Option.none := by
              rw [typeCheck_eq_none_iff]; exact ⟨hs, hn, hb⟩
            rw [this] at htc; cases htc
      | none =>
          simp only [htc]
          rw [enumCheck_eq_none_iff]
          have := (typeCheck_eq_none_iff param value).mp htc
          constructor
          · intro h; exact ⟨this.1, this.2.1, this.2.2, h⟩
          · intro h; exact h.2.2.2

/-- Validation via `_validate_parameters` passes exactly when every declared parameter
passes its individual check. -/
theorem validateParameters_eq_none_iff (ps : List ToolParameter) (parameters : ParamMap) :
    validateParameters ps parameters = Option.none ↔
      ∀ p ∈ ps, paramOk p parameters := by
  induction ps with
  | nil => simp [validateParameters]
  | cons p ps ih =>
      unfold validateParameters
      cases hc : checkParam p parameters with
      | some e =>
          simp only [hc]
          constructor
          · intro h; cases h
          · intro h
            have := (checkParam_eq_none_iff p parameters).mpr (h p (by simp))
            rw [this] at hc; cases hc
      | none =>
          simp only [hc]
          rw [ih]
          constructor
          · intro h q hq
            rcases List.mem_cons.mp hq with rfl | hq'
            · exact (checkParam_eq_none_iff q parameters).mp hc
            · exact h q hq'
          · intro h q hq; exact h q (List.mem_cons_of_mem _ hq)

/-- Executing `execute_tool` on a registered tool: a validation violation produces the
failure result carrying that violation's message, and the returned result does
not depend on the executor — the executor is never invoked on invalid input. -/
theorem executeTool_validation_error (reg : MCPToolRegistry) (tool_name : String)
    (parameters : ParamMap) (tool : MCPTool) (ex : Executor) (err : String)
    (hreg : reg.tools.lookup tool_name = Option.some (tool, ex))
    (hval : validateParameters tool.parameters parameters = Option.some err) :
    executeTool reg tool_name parameters =
      { success := false, result := Option.none, error := Option.some err, metadata := [] } := by
  unfold executeTool
  rw [hreg]
  simp only [hval]

/-- Executing `execute_tool` on a registered tool with valid parameters: the executor is
invoked on the caller's parameter dict unchanged; its exception is wrapped as a
failure result and its return value as a success result. -/
theorem executeTool_valid (reg : MCPToolRegistry) (tool_name : String)
    (parameters : ParamMap) (tool : MCPTool) (ex : Executor)
    (hreg : reg.tools.lookup tool_name = Option.some (tool, ex))
    (hval : validateParameters tool.parameters parameters = Option.none) :
    executeTool reg tool_name parameters =
      match ex parameters with
      | Except.ok r =>
          { success := true, result := r, error := Option.none
            metadata := [("tool", Value.str tool_name)] }
      | Except.error e =>
          { success := false, result := Option.none, error := Option.some e
            metadata := [("tool", Value.str tool_name)] } := by
  unfold executeTool
  rw [hreg]
  simp only [hval]

/-- A parameter used by the concrete inputs below: required, of string type,
with a declared default value `"d"`. -/
def reqWithDefault : ToolParameter :=
  { name := "p", type := ParameterType.string, description := "demo parameter"
    required := true, default := Option.some (Value.str "d"), enum := Option.none }

def demoTool : MCPTool :=
  { name := "t", description := "demo tool", parameters := [reqWithDefault]
    returns := [], examples := [] }

def demoExec : Executor := fun _ => Except.ok (Option.some (Value.str "ran"))

def demoMCPRegistry : MCPToolRegistry := ⟨[("t", (demoTool, demoExec))]⟩

/-- C3 counterexample: `reqWithDefault` is a required parameter **with a
declared default**, yet `execute_tool` with it absent returns a validation
failure instead of applying the default and invoking the executor (which would
have succeeded): `_validate_parameters` never consults `param.default`. -/
theorem C3_counterexample :
    reqWithDefault.required = true ∧
    reqWithDefault.default = Option.some (Value.str "d") ∧
    executeTool demoMCPRegistry "t" [] =
      { success := false, result := Option.none
        error := Option.some "Missing required parameter: p", metadata := [] } :=
  ⟨rfl, rfl, rfl⟩

/-- C3 (amended): `execute_tool` validates the parameter map before invoking
the executor — every required parameter must itself be present (declared
defaults are never applied), every present parameter must pass the simplified
primitive type check for its declared type, and must be a member of a
non-empty declared enum.  The first violation yields a failure result carrying
a descriptive error whose value does not depend on the executor, and on valid
input the executor receives the caller's parameter dict unchanged. -/
theorem C3_theorem (reg : MCPToolRegistry) (tool_name : String) (parameters : ParamMap)
    (tool : MCPTool) (ex : Executor)
    (hreg : reg.tools.lookup tool_name = Option.some (tool, ex)) :
    (∀ err, validateParameters tool.parameters parameters = Option.some err →
      executeTool reg tool_name parameters =
        { success := false, result := Option.none, error := Option.some err, metadata := [] }) ∧
    (validateParameters tool.parameters parameters = Option.none →
      executeTool reg tool_name parameters =
        match ex parameters with
        | Except.ok r =>
            { success := true, result := r, error := Option.none
              metadata := [("tool", Value.str tool_name)] }
        | Except.error e =>
            { success := false, result := Option.none, error := Option.some e
              metadata := [("tool", Value.str tool_name)] }) ∧
    (validateParameters tool.parameters parameters = Option.none ↔
      ∀ p ∈ tool.parameters, paramOk p parameters) :=
  ⟨fun err hval => executeTool_validation_error reg tool_name parameters tool ex err hreg hval,
   fun hval => executeTool_valid reg tool_name parameters tool ex hreg hval,
   validateParameters_eq_none_iff tool.parameters parameters⟩

/-- C3 witness: at the concrete registry, a missing required parameter is a
validation failure (despite the declared default), and supplying it makes the
executor run on the given map. -/
theorem C3_witness :
    executeTool demoMCPRegistry "t" [("p", Value.str "x")] =
      { success := true, result := Option.some (Value.str "ran"), error := Option.none
        metadata := [("tool", Value.str "t")] } := by
  have h := (C3_theorem demoMCPRegistry "t" [("p", Value.str "x")] demoTool demoExec rfl).2.1
    (by decide)
  exact h

/-! ## Unified agent runtime (`agents/shared/unified_base_agent.py`) -/

/-- The tool-relevant state of a `UnifiedBaseAgent`: `self.tools` (set by
`register_tool`) and the `_execute_<name>` attributes bound by `setattr`
(looked up with `getattr` at execution time).  The LLM client, health
counters and A2A registry reference play no part in the embedded
operations. -/
structure UnifiedBaseAgent where
  name : String
  tools : List (String × MCPTool)
  executors : List (String × Executor)

/-- Embeds `UnifiedBaseAgent.execute_tool`: unknown tool or unbound executor →
failure; otherwise the executor is awaited directly on the caller's parameter
dict — no required-parameter, type, enum or default processing happens on
this path — and an exception is wrapped into a failure result carrying
`str(e)`.  The health counters and the wall-clock `"timestamp"` metadata
entry are bookkeeping omitted from the model. -/
def UnifiedBaseAgent.execute_tool (ag : UnifiedBaseAgent) (tool_name : String)
    (parameters : ParamMap) : ToolResult :=
  if (ag.tools.lookup tool_name).isNone then
    { success := false, result := Option.none
      error := Option.some ("Tool '" ++ tool_name ++ "' not found"), metadata := [] }
  else
    match ag.executors.lookup tool_name with
    | Option.none =>
        { success := false, result := Option.none
          error := Option.some ("No executor found for tool '" ++ tool_name ++ "'")
          metadata := [] }
    | Option.some ex =>
        match ex parameters with
        | Except.ok r =>
            { success := true, result := r, error := Option.none
              metadata := [("agent", Value.str ag.name), ("tool", Value.str tool_name)] }
        | Except.error e =>
            { success := false, result := Option.none, error := Option.some e
              metadata := [("agent", Value.str ag.name), ("tool", Value.str tool_name)] }

/-- C10: for a registered tool with a bound executor,
`UnifiedBaseAgent.execute_tool` invokes the executor on the caller's
parameter map unchanged — the right-hand side applies `ex` to `parameters`
itself and mentions no validation and none of the tool's declared
parameters — and wraps an executor exception into a failure result carrying
the exception's message instead of propagating it. -/
theorem C10_theorem (ag : UnifiedBaseAgent) (tool_name : String) (parameters : ParamMap)
    (tool : MCPTool) (ex : Executor)
    (ht : ag.tools.lookup tool_name = Option.some tool)
    (hx : ag.executors.lookup tool_name = Option.some ex) :
    UnifiedBaseAgent.execute_tool ag tool_name parameters =
      match ex parameters with
      | Except.ok r =>
          { success := true, result := r, error := Option.none
            metadata := [("agent", Value.str ag.name), ("tool", Value.str tool_name)] }
      | Except.error e =>
          { success := false, result := Option.none, error := Option.some e
            metadata := [("agent", Value.str ag.name), ("tool", Value.str tool_name)] } := by
  unfold UnifiedBaseAgent.execute_tool
  rw [ht, hx]
  simp

def strictTool : MCPTool :=
  { name := "w", description := "demo strict tool"
    parameters := [{ name := "q", type := ParameterType.number, description := "required input"
                     required := true, default := Option.none, enum := Option.none }]
    returns := [], examples := [] }

def demoUnifiedAgent : UnifiedBaseAgent :=
  { name := "AgentX", tools := [("w", strictTool)]
    executors := [("w", fun _ => Except.ok (Option.some (Value.num 7)))] }

/-- C10 witness: the declared required parameter `q` is absent, yet the
executor runs and succeeds — no validation happens on this path. -/
theorem C10_witness :
    UnifiedBaseAgent.execute_tool demoUnifiedAgent "w" [] =
      { success := true, result := Option.some (Value.num 7), error := Option.none
        metadata := [("agent", Value.str "AgentX"), ("tool", Value.str "w")] } := by
  have h := C10_theorem demoUnifiedAgent "w" [] strictTool
    (fun _ => Except.ok (Option.some (Value.num 7))) rfl rfl
  exact h

/-! ## A2A models (`backend/registry/models.py`) -/

/-- Embeds the `AgentType` enum. -/
inductive AgentType where
  | data
  | visualization
  | research
  | narrative
  | prediction
  | gui
  | custom
  deriving DecidableEq, Repr

/-- Embeds `AgentType.value` — the string payload of the enum member. -/
def AgentType.value : AgentType → String
  | AgentType.data => "data"
  | AgentType.visualization => "visualization"
  | AgentType.research => "research"
  | AgentType.narrative => "narrative"
  | AgentType.prediction => "prediction"
  | AgentType.gui => "gui"
  | AgentType.custom => "custom"

/-- Embeds the `AgentStatus` enum. -/
inductive AgentStatus where
  | active
  | inactive
  | error
  | starting
  deriving DecidableEq, Repr

/-- Embeds `AgentCapability` (pydantic model). -/
structure AgentCapability where
  name : String
  description : String
  parameters : ParamMap
  output_type : String
  examples : List String
  deriving DecidableEq, Repr

/-- Embeds `AgentRegistration` (pydantic model).  `registered_at` is the
`datetime.now()` timestamp, modelled as a natural number whose order is the
registration order. -/
structure AgentRegistration where
  id : String
  name : String
  type : AgentType
  description : String
  capabilities : List AgentCapability
  endpoint : String
  version : String
  status : AgentStatus
  registered_at : Nat
  metadata : ParamMap
  deriving DecidableEq, Repr

/-- Embeds `DiscoveryResult` (pydantic model). -/
structure DiscoveryResult where
  agent : AgentRegistration
  relevance_score : ℚ
  matched_capabilities : List String
  deriving DecidableEq, Repr

/-- Embeds the `MessageType` enum. -/
inductive MessageType where
  | request
  | response
  | notification
  | error
  deriving DecidableEq, Repr

/-- Embeds `A2AMessage` (pydantic model).  The `id` default is a fresh `uuid4()`
string at construction; where the code constructs messages, the embedding
threads an id supply.  The `timestamp` field is wall-clock bookkeeping not
consulted by any embedded operation and is omitted. -/
structure A2AMessage where
  id : String
  from_agent : String
  to_agent : String
  message_type : MessageType
  action : String
  payload : ParamMap
  context : ParamMap
  correlation_id : Option String
  deriving DecidableEq, Repr

/-- Embeds `A2AResponse` (pydantic model).  As with `ToolResult`, an `Optional`
field holding Python `None` is `Option.none`. -/
structure A2AResponse where
  success : Bool
  result : Option Value
  error : Option String
  metadata : ParamMap
  deriving DecidableEq, Repr

/-! ## A2A registry (`backend/registry/a2a_registry.py`) -/

/-- An agent message handler registered via `register_agent_handler`: an
async callable on the message which may raise (`Except.error` carrying
`str(e)`) and may return `None` (`Except.ok Option.none`). -/
abbrev Handler := A2AMessage → Except String (Option Value)

/-- One record of the ChromaDB `agents` collection: the id, the embedding
document, and the `agent_data` metadata (stored as `model_dump_json` and
parsed back by the readers; the JSON round trip is modelled as identity, so
the parsed registration is carried directly). -/
structure ChromaEntry where
  id : String
  document : String
  agent_data : AgentRegistration
  deriving DecidableEq, Repr

/-- The ChromaDB `agents` collection, keyed by record id. -/
structure ChromaCollection where
  entries : List ChromaEntry
  deriving DecidableEq, Repr

/-- ChromaDB `Collection.add`: ids are unique keys, and `add` never updates
an existing record — depending on the Chroma version a duplicate id is either
ignored with a warning or rejected with a duplicate-id error; in both cases
the stored record is left unchanged and no second record appears.  (`update`
and `upsert` are separate collection operations, not used by
`register_agent`.) -/
def ChromaCollection.addEntry (c : ChromaCollection) (e : ChromaEntry) : ChromaCollection :=
  if c.entries.any (fun e' => e'.id = e.id) then c
  else { entries := c.entries ++ [e] }

/-- The id-consistency of the collection maintained by the registry: every
record is stored under its registration's id. -/
def ChromaCollection.wf (c : ChromaCollection) : Prop :=
  ∀ e ∈ c.entries, e.id = e.agent_data.id

instance (c : ChromaCollection) : Decidable c.wf := by
  unfold ChromaCollection.wf
  infer_instance

/-- The mutable state of an `A2ARegistry` instance: the ChromaDB collection,
the local handler table, the message history, the pending-response table, and
the in-memory agent cache. -/
structure A2ARegistry where
  collection : ChromaCollection
  agent_handlers : List (String × Handler)
  message_history : List A2AMessage
  pending_responses : List (String × A2AResponse)
  agents : List (String × AgentRegistration)

/-- Embeds `A2ARegistry._create_embedding_text`: deterministic concatenation of the
agent's name, type, description, per-capability name/description, output
type, examples and parameter names, plus metadata keywords, joined by
`" | "`.  Python checks `agent.metadata.get("keywords")` for truthiness; any
non-list value there would crash `', '.join`, so only a non-empty string
list contributes. -/
def _create_embedding_text (agent : AgentRegistration) : String :=
  let capParts := agent.capabilities.flatMap (fun cap =>
    ["Capability: " ++ cap.name ++ " - " ++ cap.description, "Output: " ++ cap.output_type]
    ++ (if cap.examples ≠ [] then ["Examples: " ++ String.intercalate ", " cap.examples] else [])
    ++ (if cap.parameters ≠ [] then
          ["Parameters: " ++ String.intercalate ", " (cap.parameters.map (fun kv => kv.1))]
        else []))
  let kwParts := match agent.metadata.lookup "keywords" with
    | Option.some (Value.strList ks) =>
        if ks ≠ [] then ["Keywords: " ++ String.intercalate ", " ks] else []
    | _ => []
  String.intercalate " | "
    (["Agent: " ++ agent.name, "Type: " ++ agent.type.value,
      "Description: " ++ agent.description] ++ capParts ++ kwParts)

/-- Embeds `A2ARegistry.register_agent` reply: the returned status dict. -/
structure RegisterReply where
  success : Bool
  agent_id : Option String
  message : Option String
  error : Option String
  deriving DecidableEq, Repr

/-- Embeds `A2ARegistry.register_agent`: build the embedding text, `add` the record
to the collection (see `ChromaCollection.addEntry`: an already-present id
leaves the stored record unchanged), and update the in-memory cache by dict
assignment.  The pydantic parse of `agent_data` is assumed to have succeeded
(a parse failure returns a failure reply without touching any state, a path
no claim concerns). -/
def register_agent (st : A2ARegistry) (agent : AgentRegistration) :
    A2ARegistry × RegisterReply :=
  let entry : ChromaEntry :=
    { id := agent.id, document := _create_embedding_text agent, agent_data := agent }
  ({ st with
      collection := st.collection.addEntry entry
      agents := dictInsert st.agents agent.id agent },
   { success := true, agent_id := Option.some agent.id
     message := Option.some ("Agent '" ++ agent.name ++ "' registered successfully")
     error := Option.none })

/-- Embeds `A2ARegistry.list_agents`: read every record of the collection and parse
its `agent_data` metadata back into a registration. -/
def list_agents (st : A2ARegistry) : List AgentRegistration :=
  st.collection.entries.map (fun e => e.agent_data)

/-- Embeds `A2ARegistry._find_matched_capabilities` body for one capability: the
capability name is collected when its lowered name or description occurs as a
substring of the lowered intent, and again when any whitespace token of some
lowered example occurs in the lowered intent (`break` after the first such
example). -/
def capabilityMatches (cap : AgentCapability) (intent_lower : String) : List String :=
  (if strIn (pyLower cap.name) intent_lower ∨ strIn (pyLower cap.description) intent_lower then
     [cap.name]
   else [])
  ++ (if cap.examples.any (fun exm =>
          (pySplit (pyLower exm)).any (fun word => strIn word intent_lower)) then
        [cap.name]
      else [])

/-- Embeds `A2ARegistry._find_matched_capabilities`: collect matches over all
capabilities and deduplicate (`list(set(matched))`; Python's set iteration
order is unspecified — the model keeps first occurrences, and no embedded
consumer depends on the order). -/
def _find_matched_capabilities (agent : AgentRegistration) (intent : String) : List String :=
  ((agent.capabilities.map (fun cap => capabilityMatches cap (pyLower intent))).flatten).eraseDups

/-- The relevance-score conversion in `discover_agents`:
`1.0 - (distance / 2.0) if distance else 1.0` — the Python conditional tests
the float's truthiness, so a zero distance takes the `1.0` branch (which
coincides with `1 - 0/2`).  No clamping is applied. -/
def relevanceScore (distance : ℚ) : ℚ :=
  if distance ≠ 0 then 1 - distance / 2 else 1

theorem relevanceScore_eq (distance : ℚ) : relevanceScore distance = 1 - distance / 2 := by
  unfold relevanceScore
  by_cases h : distance = 0 <;> simp [h]

/-- One hit of the ChromaDB similarity query issued by `discover_agents`:
`ids[0][i]`, the parsed `agent_data` of `metadatas[0][i]`, and
`distances[0][i]`.  (Chroma returns these three parallel arrays; a reply
with no `distances` key makes every distance 0, which the score conversion
sends to 1.) -/
structure QueryHit where
  id : String
  agent_data : AgentRegistration
  distance : ℚ
  deriving DecidableEq, Repr

/-- Embeds `A2ARegistry.discover_agents`, processing the similarity-index reply for
the given intent: each hit is turned into a `DiscoveryResult` in reply order
with the converted relevance score and the keyword-matched capabilities.
The index query itself is external; the reply is the function's input. -/
def discover_agents (reply : List QueryHit) (intent : String) : List DiscoveryResult :=
  reply.map (fun hit =>
    { agent := hit.agent_data
      relevance_score := relevanceScore hit.distance
      matched_capabilities := _find_matched_capabilities hit.agent_data intent })

/-- Embeds `A2ARegistry.send_message`.  The WebSocket broadcast is fire-and-forget
with swallowed exceptions and affects neither state nor result, so it does
not appear.  The HTTP dispatch of `_send_http_message` exchanges bytes with
an external service; its outcome is the oracle `http`.  The success
metadata's wall-clock `"timestamp"` entry is omitted.  Python checks
`hasattr(target_agent, 'endpoint') and target_agent.endpoint`; the pydantic
model always has the attribute, so the test is endpoint truthiness. -/
def send_message (st : A2ARegistry)
    (http : AgentRegistration → A2AMessage → A2AResponse)
    (message : A2AMessage) : A2ARegistry × A2AResponse :=
  let st1 := { st with message_history := st.message_history ++ [message] }
  match (list_agents st1).find? (fun a => a.id = message.to_agent) with
  | Option.none =>
      (st1,
       { success := false, result := Option.none
         error := Option.some ("Agent " ++ message.to_agent ++ " not found in registry")
         metadata := [] })
  | Option.some target_agent =>
      if target_agent.endpoint ≠ "" then
        (st1, http target_agent message)
      else
        match st1.agent_handlers.lookup message.to_agent with
        | Option.none =>
            (st1,
             { success := false, result := Option.none
               error := Option.some ("Agent " ++ message.to_agent ++ " has no handler registered")
               metadata := [] })
        | Option.some handler =>
            match handler message with
            | Except.ok r =>
                let response : A2AResponse :=
                  { success := true, result := r, error := Option.none
                    metadata := [("agent", Value.str target_agent.name),
                                 ("action", Value.str message.action)] }
                let st2 :=
                  if message.message_type = MessageType.request ∧ message.id ≠ "" then
                    { st1 with
                        pending_responses := dictInsert st1.pending_responses message.id response }
                  else st1
                (st2, response)
            | Except.error e =>
                (st1,
                 { success := false, result := Option.none, error := Option.some e
                   metadata := [("agent", Value.str target_agent.name)] })

/-- Embeds `A2ARegistry.get_message_history`: optionally filter by agent, then take
the Python slice `messages[-limit:]` — for a positive limit the last `limit`
entries, and for `limit = 0` the whole list (`messages[-0:]` is
`messages[0:]`). -/
def get_message_history (st : A2ARegistry) (limit : Nat) (agent_id : Option String) :
    List A2AMessage :=
  let messages := match agent_id with
    | Option.some aid =>
        st.message_history.filter (fun m => m.from_agent = aid ∨ m.to_agent = aid)
    | Option.none => st.message_history
  if limit = 0 then messages else messages.drop (messages.length - limit)

/-! ## Orchestrator (`A2ARegistry.orchestrate_agents`) -/

/-- One entry of the orchestration step log.  Python adds the
`result_preview` key only on success and the `error` key only on failure;
both are modelled as optional fields. -/
structure OrchStep where
  agent : String
  action : String
  success : Bool
  result_preview : Option String
  error : Option String
  deriving DecidableEq, Repr

/-- The dict returned by `orchestrate_agents`.  The no-agents early return
(`{"success": False, "error": ..., "intent": ...}`) is the same record with
empty step log, result map and agent list. -/
structure OrchestrationResult where
  intent : String
  agents_involved : List String
  steps : List OrchStep
  results : List (String × Option Value)
  success : Bool
  error : Option String
  deriving Repr

/-- The body of the `for discovery in discovery_results:` loop of
`orchestrate_agents`: an agent with no matched capability, or whose first
matched capability name resolves to no declared capability, contributes no
step; otherwise a request message carrying the intent is built (with a fresh
`uuid4()` id, supplied by `uuid` at the running message count `k`) and sent,
and the step log, result map, state and message count advance.  Every branch
continues with the remaining ranked agents. -/
def orchestrateStep (http : AgentRegistration → A2AMessage → A2AResponse)
    (uuid : Nat → String) (intent initiator : String)
    (acc : A2ARegistry × Nat × List OrchStep × List (String × Option Value))
    (discovery : DiscoveryResult) :
    A2ARegistry × Nat × List OrchStep × List (String × Option Value) :=
  let (st, k, steps, results) := acc
  match discovery.matched_capabilities with
  | [] => acc
  | capability_name :: _ =>
      match discovery.agent.capabilities.find? (fun c => c.name = capability_name) with
      | Option.none => acc
      | Option.some capability =>
          let message : A2AMessage :=
            { id := uuid k, from_agent := initiator, to_agent := discovery.agent.id
              message_type := MessageType.request, action := capability.name
              payload := [("intent", Value.str intent)]
              context := [("orchestration", Value.bool true),
                          ("original_intent", Value.str intent)]
              correlation_id := Option.none }
          let sent := send_message st http message
          let response := sent.2
          let step_info : OrchStep :=
            { agent := discovery.agent.name, action := capability.name
              success := response.success
              result_preview :=
                if response.success then Option.some ((pyStr response.result).take 200)
                else Option.none
              error := if response.success then Option.none else response.error }
          let results' :=
            if response.success then dictInsert results discovery.agent.id response.result
            else results
          (sent.1, k + 1, steps ++ [step_info], results')

/-- Embeds `A2ARegistry.orchestrate_agents`: discover agents for the intent (the
similarity-index reply is the `hits` input, as in `discover_agents`), return
an early failure when none are found, and otherwise run the step loop over
the ranked discoveries in order, finally setting overall `success` to
`any(s["success"] for s in steps)`. -/
def orchestrate_agents (st : A2ARegistry)
    (http : AgentRegistration → A2AMessage → A2AResponse) (uuid : Nat → String)
    (hits : List QueryHit) (intent : String) (initiator : String) :
    A2ARegistry × OrchestrationResult :=
  let discovery_results := discover_agents hits intent
  if discovery_results.isEmpty then
    (st,
     { intent := intent, agents_involved := [], steps := [], results := []
       success := false, error := Option.some "No agents found for intent" })
  else
    let fin := discovery_results.foldl (orchestrateStep http uuid intent initiator)
      (st, 0, [], [])
    (fin.1,
     { intent := intent
       agents_involved := discovery_results.map (fun r => r.agent.id)
       steps := fin.2.2.1
       results := fin.2.2.2
       success := fin.2.2.1.any (fun s => s.success)
       error := Option.none })

/-- The (agent name, capability name) pair a ranked discovery contributes to
the step log when it is eligible: a first matched capability exists and
resolves against the agent's declared capabilities. -/
def eligibleStep (discovery : DiscoveryResult) : Option (String × String) :=
  match discovery.matched_capabilities with
  | [] => Option.none
  | capability_name :: _ =>
      match discovery.agent.capabilities.find? (fun c => c.name = capability_name) with
      | Option.none => Option.none
      | Option.some capability => Option.some (discovery.agent.name, capability.name)

/-! ## Semantic tool selection (`agents/shared/unified_base_agent.py`) -/

/-- Embeds `UnifiedBaseAgent._fallback_tool_selection`: lowercase the query; for
each registered tool, split the tool name on `'_'` and the description on
whitespace, and select the tool when any such keyword longer than 3
characters occurs **as a substring** of the lowered query (Python's
`keyword in query_lower` on strings); each selected tool is paired with the
caller's context dict (`context or {}`). -/
def _fallback_tool_selection (ag : UnifiedBaseAgent) (query : String)
    (context : Option ParamMap) : List (String × ParamMap) :=
  let query_lower := pyLower query
  (ag.tools.filter (fun tn =>
      let tool_keywords := pySplitUnder (pyLower tn.1) ++ pySplit (pyLower tn.2.description)
      tool_keywords.any (fun keyword => keyword.length > 3 && strIn keyword query_lower))).map
    (fun tn => (tn.1, context.getD []))

/-- One element of the JSON array proposed by the reasoning backend in
`select_tools_for_query`: `valid` models a JSON object carrying a `"tool"`
key (with the optional `"parameters"` key), `malformed` models any other
element, which the extraction loop skips. -/
inductive LLMPlanItem where
  | valid (tool : String) (parameters : Option ParamMap)
  | malformed
  deriving Repr

/-- Embeds `UnifiedBaseAgent.select_tools_for_query`.  The reasoning backend is
external; its proposal is the `reply` input: `Option.some items` models a
JSON array (`isinstance(tool_plan, list)`), and `Option.none` models
everything that skips the array branch — a non-array (including the `None`
the LLM client returns on failure) or an exception.  An array proposal is
converted item by item and returned as-is — in particular an **empty** array
yields an empty selection without consulting the fallback; only a non-array
proposal, an error, or `semantic_tool_selection` being off reaches
`_fallback_tool_selection`. -/
def select_tools_for_query (ag : UnifiedBaseAgent) (semantic_tool_selection : Bool)
    (reply : Option (List LLMPlanItem)) (query : String) (context : Option ParamMap) :
    List (String × ParamMap) :=
  if semantic_tool_selection = false then
    _fallback_tool_selection ag query context
  else
    match reply with
    | Option.some tool_plan =>
        tool_plan.filterMap (fun item =>
          match item with
          | LLMPlanItem.valid tool parameters => Option.some (tool, parameters.getD [])
          | LLMPlanItem.malformed => Option.none)
    | Option.none => _fallback_tool_selection ag query context

/-- Modelled from the spec (§4.5): "a malformed or empty proposal triggers a
deterministic fallback: tokenize the query and each tool's name+description,
keep tokens longer than 3 characters, and select any tool whose token set
intersects the query's token set."  Stated only to compare with the
implemented `_fallback_tool_selection`. -/
def specFallbackSelection (ag : UnifiedBaseAgent) (query : String)
    (context : Option ParamMap) : List (String × ParamMap) :=
  let queryTokens := (pySplit (pyLower query)).filter (fun t => t.length > 3)
  (ag.tools.filter (fun tn =>
      let toolTokens := (pySplitUnder (pyLower tn.1) ++ pySplit (pyLower tn.2.description)).filter
        (fun t => t.length > 3)
      toolTokens.any (fun tk => queryTokens.contains tk))).map
    (fun tn => (tn.1, context.getD []))

/-! ## Claim C1 — re-registration and id uniqueness -/

def emptyA2ARegistry : A2ARegistry :=
  { collection := ⟨[]⟩, agent_handlers := [], message_history := []
    pending_responses := [], agents := [] }

def regA1 : AgentRegistration :=
  { id := "a", name := "n1", type := AgentType.data, description := "first"
    capabilities := [], endpoint := "http://one", version := "1.0.0"
    status := AgentStatus.active, registered_at := 1, metadata := [] }

def regA2 : AgentRegistration :=
  { id := "a", name := "n2", type := AgentType.data, description := "second"
    capabilities := [], endpoint := "http://two", version := "1.0.0"
    status := AgentStatus.active, registered_at := 2, metadata := [] }

/-- C1 counterexample: registering `regA2` under the id already taken by
`regA1` does **not** update the stored record in place — `list_agents` still
returns the first registration (`name = "n1"`), not the second: the
collection `add` used by `register_agent` is not an upsert.  (No duplicate
appears, so only the update-in-place half of the claim fails.) -/
theorem C1_counterexample :
    regA1.id = regA2.id ∧ regA1.name ≠ regA2.name ∧
    list_agents (register_agent (register_agent emptyA2ARegistry regA1).1 regA2).1
      = [regA1] := by
  decide

/-- C1 (amended): registering an agent descriptor whose id is already
registered leaves the stored collection record — and hence `list()` —
unchanged (only the in-memory cache is overwritten); and `list()` returns at
most one descriptor per agent id: registration preserves both the
id-consistency of the collection and the no-duplicate-ids property of
`list()`. -/
theorem C1_theorem (st : A2ARegistry) (agent : AgentRegistration)
    (hwf : st.collection.wf) :
    (register_agent st agent).1.collection.wf ∧
    (agent.id ∈ (list_agents st).map (fun a => a.id) →
      list_agents (register_agent st agent).1 = list_agents st ∧
      (register_agent st agent).1.agents = dictInsert st.agents agent.id agent) ∧
    (((list_agents st).map (fun a => a.id)).Nodup →
      ((list_agents (register_agent st agent).1).map (fun a => a.id)).Nodup) := by
  have hany : (st.collection.entries.any (fun e' => e'.id = agent.id) = true)
      ↔ agent.id ∈ (list_agents st).map (fun a => a.id) := by
    simp only [list_agents, List.any_eq_true, List.mem_map, decide_eq_true_eq]
    constructor
    · rintro ⟨e, he, heq⟩
      exact ⟨e.agent_data, ⟨e, he, rfl⟩, by rw [← hwf e he, heq]⟩
    · rintro ⟨a, ⟨e, he, rfl⟩, heq⟩
      exact ⟨e, he, by rw [hwf e he, heq]⟩
  by_cases hmem : st.collection.entries.any (fun e' => e'.id = agent.id) = true
  · have hcoll : (register_agent st agent).1.collection = st.collection := by
      simp [register_agent, ChromaCollection.addEntry, hmem]
    refine ⟨by rw [hcoll]; exact hwf, fun _ => ⟨?_, rfl⟩, fun hnd => ?_⟩
    · simp [list_agents, hcoll]
    · simpa [list_agents, hcoll] using hnd
  · have hcoll : (register_agent st agent).1.collection
        = ⟨st.collection.entries ++
            [⟨agent.id, _create_embedding_text agent, agent⟩]⟩ := by
      simp only [register_agent, ChromaCollection.addEntry, hmem, if_false, Bool.false_eq_true]
    have hidmem : agent.id ∉ (list_agents st).map (fun a => a.id) := fun h =>
      hmem (hany.mpr h)
    refine ⟨?_, fun h => absurd h hidmem, fun hnd => ?_⟩
    · intro e he
      rw [hcoll] at he
      rcases List.mem_append.mp he with h | h
      · exact hwf e h
      · simp only [List.mem_singleton] at h
        subst h
        rfl
    · have : list_agents (register_agent st agent).1
          = list_agents st ++ [agent] := by
        simp [list_agents, hcoll]
      rw [this, List.map_append]
      simp only [List.map_cons, List.map_nil]
      rw [List.nodup_append]
      exact ⟨hnd, List.nodup_singleton _, by
        simp only [List.disjoint_singleton]
        simpa using hidmem⟩

/-- C1 witness: with `regA1` already registered, re-registering the same id
(`regA2`) leaves the listing unchanged and the listed ids duplicate-free. -/
theorem C1_witness :
    list_agents (register_agent (register_agent emptyA2ARegistry regA1).1 regA2).1
      = list_agents (register_agent emptyA2ARegistry regA1).1 ∧
    ((list_agents (register_agent (register_agent emptyA2ARegistry regA1).1 regA2).1).map
      (fun a => a.id)).Nodup := by
  have h := C1_theorem (register_agent emptyA2ARegistry regA1).1 regA2 (by decide)
  exact ⟨(h.2.1 (by decide)).1, h.2.2 (by decide)⟩

/-! ## Claim C2 — discovery ordering -/

/-- C2: `discover_agents` preserves the similarity-index reply order
one-to-one (second conjunct), so when the index reply is sorted by
non-decreasing distance with equal distances presented in registration order
(its documented ordering contract, the hypothesis), the returned results
carry non-increasing relevance scores, and results with equal scores appear
in registration order. -/
theorem C2_theorem (reply : List QueryHit) (intent : String)
    (hsort : reply.Pairwise (fun h1 h2 =>
      h1.distance < h2.distance ∨
        (h1.distance = h2.distance ∧
          h1.agent_data.registered_at ≤ h2.agent_data.registered_at))) :
    ((discover_agents reply intent).Pairwise (fun r1 r2 =>
      r2.relevance_score ≤ r1.relevance_score ∧
        (r1.relevance_score = r2.relevance_score →
          r1.agent.registered_at ≤ r2.agent.registered_at))) ∧
    (discover_agents reply intent).map (fun r => r.agent)
      = reply.map (fun h => h.agent_data) := by
  constructor
  · unfold discover_agents
    rw [List.pairwise_map]
    refine hsort.imp ?_
    intro a b hab
    dsimp only
    simp only [relevanceScore_eq]
    rcases hab with h | ⟨heq, hreg⟩
    · constructor
      · linarith
      · intro hsc
        exfalso
        have : a.distance = b.distance := by linarith
        exact (ne_of_lt h) this
    · exact ⟨by rw [heq], fun _ => hreg⟩
  · unfold discover_agents
    rw [List.map_map]
    rfl

/-- C2 witness: a concrete two-hit reply with distances 1/2 < 1. -/
theorem C2_witness :
    ((discover_agents [⟨"a1", regA1, 1/2⟩, ⟨"a2", regA2, 1⟩] "intent").Pairwise
      (fun r1 r2 =>
        r2.relevance_score ≤ r1.relevance_score ∧
          (r1.relevance_score = r2.relevance_score →
            r1.agent.registered_at ≤ r2.agent.registered_at))) ∧
    (discover_agents [⟨"a1", regA1, 1/2⟩, ⟨"a2", regA2, 1⟩] "intent").map
        (fun r => r.agent)
      = [regA1, regA2] :=
  C2_theorem [⟨"a1", regA1, 1/2⟩, ⟨"a2", regA2, 1⟩] "intent" (by
    refine List.Pairwise.cons ?_ (List.pairwise_singleton _ _)
    intro b hb
    rw [List.mem_singleton] at hb
    subst hb
    left
    norm_num)

/-! ## Claim C7 — relevance-score conversion -/

/-- Modelled from the spec (§4.1): "converts the raw distance to a relevance
score (`score = 1 − distance/2`, clamped)" — the conversion clamped to the
valid score range [0, 1].  Stated only to compare with the implemented
conversion. -/
def specClampedScore (distance : ℚ) : ℚ :=
  max 0 (min 1 (1 - distance / 2))

def farAgent : AgentRegistration :=
  { id := "far", name := "Far", type := AgentType.custom, description := "far agent"
    capabilities := [], endpoint := "http://far", version := "1.0.0"
    status := AgentStatus.active, registered_at := 3, metadata := [] }

/-- C7 counterexample: a raw distance of 4 (squared-L2 distances are
unbounded) is converted to relevance score −1, below the valid score range:
`discover_agents` applies no clamping, diverging from the clamped conversion
the claim states. -/
theorem C7_counterexample :
    (discover_agents [⟨"far", farAgent, 4⟩] "q").map (fun r => r.relevance_score)
      = [(-1 : ℚ)] ∧
    specClampedScore 4 = 0 ∧ ¬ ((0 : ℚ) ≤ -1) := by
  refine ⟨?_, ?_, by norm_num⟩
  · simp only [discover_agents, List.map_cons, List.map_nil, relevanceScore_eq]
    norm_num
  · unfold specClampedScore
    norm_num

/-- C7 (amended): for every raw distance `d` in the index reply,
`discover_agents` converts it to exactly `1 − d/2`, with **no** clamping
(the zero-distance truthiness branch coincides with the formula). -/
theorem C7_theorem (reply : List QueryHit) (intent : String) :
    (discover_agents reply intent).map (fun r => r.relevance_score)
      = reply.map (fun h => 1 - h.distance / 2) := by
  unfold discover_agents
  rw [List.map_map]
  refine List.map_congr_left ?_
  intro hit _
  simp [relevanceScore_eq]

/-! ## Claim C5 — sending to an unknown agent id -/

theorem strData_append (s t : String) : (s ++ t).data = s.data ++ t.data := rfl

@[simp] theorem list_agents_set_history (st : A2ARegistry) (h : List A2AMessage) :
    list_agents { st with message_history := h } = list_agents st := rfl

/-- C5: when no registered descriptor carries the message's `to_agent` id,
`send_message` fails with an error containing `"not found"`, and the message
has still been appended to the message history (the append happens before
the lookup). -/
theorem C5_theorem (st : A2ARegistry)
    (http : AgentRegistration → A2AMessage → A2AResponse) (message : A2AMessage)
    (habs : ∀ a ∈ list_agents st, a.id ≠ message.to_agent) :
    (send_message st http message).2.success = false ∧
    (send_message st http message).2.error
      = Option.some ("Agent " ++ message.to_agent ++ " not found in registry") ∧
    ("not found".data <:+: ("Agent " ++ message.to_agent ++ " not found in registry").data) ∧
    message ∈ (send_message st http message).1.message_history := by
  have hfind : (list_agents st).find? (fun a => a.id = message.to_agent) = Option.none := by
    rw [List.find?_eq_none]
    intro a ha
    simpa using habs a ha
  have hsend : send_message st http message
      = ({ st with message_history := st.message_history ++ [message] },
         { success := false, result := Option.none
           error := Option.some ("Agent " ++ message.to_agent ++ " not found in registry")
           metadata := [] }) := by
    unfold send_message
    dsimp only
    rw [show list_agents { st with message_history := st.message_history ++ [message] }
          = list_agents st from rfl,
        hfind]
  refine ⟨by rw [hsend], by rw [hsend], ?_, by rw [hsend]; simp⟩
  refine ⟨("Agent " ++ message.to_agent ++ " ").data, " in registry".data, ?_⟩
  simp only [strData_append, List.append_assoc]
  have hlit : ((" ".data : List Char) ++ ("not found".data ++ " in registry".data))
      = " not found in registry".data := by decide
  rw [hlit]

/-- A dispatch oracle standing for an unreachable remote endpoint. -/
def httpDown : AgentRegistration → A2AMessage → A2AResponse :=
  fun _ _ =>
    { success := false, result := Option.none
      error := Option.some "unreachable", metadata := [] }

def msg5 : A2AMessage :=
  { id := "m5", from_agent := "user", to_agent := "ghost"
    message_type := MessageType.request, action := "do"
    payload := [], context := [], correlation_id := Option.none }

/-- C5 witness: sending to the unregistered id `"ghost"` on an empty
registry. -/
theorem C5_witness :
    (send_message emptyA2ARegistry httpDown msg5).2.success = false ∧
    (send_message emptyA2ARegistry httpDown msg5).2.error
      = Option.some ("Agent " ++ msg5.to_agent ++ " not found in registry") ∧
    ("not found".data <:+: ("Agent " ++ msg5.to_agent ++ " not found in registry").data) ∧
    msg5 ∈ (send_message emptyA2ARegistry httpDown msg5).1.message_history :=
  C5_theorem emptyA2ARegistry httpDown msg5 (by decide)

/-! ## Claim C9 — message history -/

/-- C9 (amended): every `send_message` appends the message to the stored
history, which is never trimmed (so it grows without bound as messages are
sent); only `get_message_history`'s **return value** is truncated, to the
last `limit` entries — and the Python slice `messages[-limit:]` returns the
entire history when `limit = 0`. -/
theorem C9_theorem (st : A2ARegistry)
    (http : AgentRegistration → A2AMessage → A2AResponse) (message : A2AMessage)
    (limit : Nat) :
    (send_message st http message).1.message_history
      = st.message_history ++ [message] ∧
    (0 < limit →
      (get_message_history st limit Option.none).length
        = min limit st.message_history.length) ∧
    get_message_history st 0 Option.none = st.message_history := by
  refine ⟨?_, ?_, ?_⟩
  · unfold send_message
    dsimp only
    split
    · rfl
    · split
      · rfl
      · split
        · rfl
        · split
          · dsimp only
            split
            · rfl
            · rfl
          · rfl
  · intro hl
    unfold get_message_history
    dsimp only
    rw [if_neg (Nat.pos_iff_ne_zero.mp hl), List.length_drop]
    omega
  · unfold get_message_history
    dsimp only
    rw [if_pos rfl]

set_option maxRecDepth 20000 in
/-- C9 counterexample: after 101 sends the **stored** history holds 101
messages — it exceeds 100, the only fixed bound appearing in the code (the
default `limit` of `get_message_history`); no trimming of
`self.message_history` exists anywhere, so no fixed cap bounds it. -/
theorem C9_counterexample :
    (Nat.iterate (fun st => (send_message st httpDown msg5).1) 101
        emptyA2ARegistry).message_history.length = 101 ∧
    100 < 101 := by
  constructor
  · decide
  · omega

/-! ## Claim C6 — result/error exclusivity -/

/-- The shape every locally-constructed `A2AResponse` satisfies: never both
`result` and `error` populated; a failure always carries an error string and
no result.  (Presence of a result on success is **not** part of this — see
the counterexample.) -/
def responseExclusive (r : A2AResponse) : Prop :=
  (r.success = true → r.error = Option.none) ∧
  (r.success = false → r.result = Option.none ∧ r.error.isSome = true)

/-- The same shape on `ToolResult`. -/
def toolResultExclusive (r : ToolResult) : Prop :=
  (r.success = true → r.error = Option.none) ∧
  (r.success = false → r.result = Option.none ∧ r.error.isSome = true)

/-- C6 (amended): every Result/Response constructed by the embedded
operations has never both `result` and `error` populated, and on failure the
error string is always present with no result; but on success the result
field simply carries the handler's or executor's return value, which may
itself be absent (`None`) — "exactly one populated" is not enforced on the
success side.  For `send_message` the remote-dispatch oracle is assumed to
deliver responses of the same shape (`_send_http_message` builds only such
responses from the wire, but the wire itself is external). -/
theorem C6_theorem :
    (∀ (st : A2ARegistry) (http : AgentRegistration → A2AMessage → A2AResponse)
        (message : A2AMessage),
      (∀ t m, responseExclusive (http t m)) →
      responseExclusive (send_message st http message).2) ∧
    (∀ (reg : MCPToolRegistry) (tool_name : String) (parameters : ParamMap),
      toolResultExclusive (executeTool reg tool_name parameters)) ∧
    (∀ (ag : UnifiedBaseAgent) (tool_name : String) (parameters : ParamMap),
      toolResultExclusive (UnifiedBaseAgent.execute_tool ag tool_name parameters)) := by
  refine ⟨?_, ?_, ?_⟩
  · intro st http message hhttp
    unfold send_message
    dsimp only
    split
    · exact ⟨fun h => Bool.noConfusion h, fun _ => ⟨rfl, rfl⟩⟩
    · split
      · exact hhttp _ _
      · split
        · exact ⟨fun h => Bool.noConfusion h, fun _ => ⟨rfl, rfl⟩⟩
        · split
          · exact ⟨fun _ => rfl, fun h => Bool.noConfusion h⟩
          · exact ⟨fun h => Bool.noConfusion h, fun _ => ⟨rfl, rfl⟩⟩
  · intro reg tool_name parameters
    unfold executeTool
    split
    · exact ⟨fun h => Bool.noConfusion h, fun _ => ⟨rfl, rfl⟩⟩
    · split
      · exact ⟨fun h => Bool.noConfusion h, fun _ => ⟨rfl, rfl⟩⟩
      · split
        · exact ⟨fun _ => rfl, fun h => Bool.noConfusion h⟩
        · exact ⟨fun h => Bool.noConfusion h, fun _ => ⟨rfl, rfl⟩⟩
  · intro ag tool_name parameters
    unfold UnifiedBaseAgent.execute_tool
    split
    · exact ⟨fun h => Bool.noConfusion h, fun _ => ⟨rfl, rfl⟩⟩
    · split
      · exact ⟨fun h => Bool.noConfusion h, fun _ => ⟨rfl, rfl⟩⟩
      · split
        · exact ⟨fun _ => rfl, fun h => Bool.noConfusion h⟩
        · exact ⟨fun h => Bool.noConfusion h, fun _ => ⟨rfl, rfl⟩⟩

def localAgent : AgentRegistration :=
  { id := "local-1", name := "Local", type := AgentType.custom
    description := "in-process agent", capabilities := [], endpoint := ""
    version := "1.0.0", status := AgentStatus.active, registered_at := 4
    metadata := [] }

/-- A registry holding one local agent (empty endpoint → handler dispatch)
whose registered handler returns Python `None`. -/
def c6Registry : A2ARegistry :=
  { collection := ⟨[⟨"local-1", _create_embedding_text localAgent, localAgent⟩]⟩
    agent_handlers := [("local-1", fun _ => Except.ok Option.none)]
    message_history := [], pending_responses := []
    agents := [("local-1", localAgent)] }

def msg6 : A2AMessage :=
  { id := "m6", from_agent := "user", to_agent := "local-1"
    message_type := MessageType.request, action := "ping"
    payload := [], context := [], correlation_id := Option.none }

/-- C6 counterexample: a local handler that returns `None` (as
`handle_a2a_message` does whenever the underlying tool executor returns no
value) yields `A2AResponse(success=True, result=None, error=None)` — a
success with **both** `result` and `error` absent, violating the claimed
"exactly one populated". -/
theorem C6_counterexample :
    (send_message c6Registry httpDown msg6).2.success = true ∧
    (send_message c6Registry httpDown msg6).2.result = Option.none ∧
    (send_message c6Registry httpDown msg6).2.error = Option.none := by
  decide

/-- C6 witness: the exclusivity shape holds on the concrete not-found send
and on a concrete tool execution. -/
theorem C6_witness :
    responseExclusive (send_message emptyA2ARegistry httpDown msg5).2 ∧
    toolResultExclusive (executeTool demoMCPRegistry "t" []) := by
  have h := C6_theorem
  exact ⟨h.1 emptyA2ARegistry httpDown msg5
    (fun _ _ => ⟨fun hh => Bool.noConfusion hh, fun _ => ⟨rfl, rfl⟩⟩),
    h.2.1 demoMCPRegistry "t" []⟩

/-! ## Claim C4 — orchestration fan-out -/

/-- The step loop of `orchestrate_agents` visits every ranked discovery: the
`(agent, action)` trace of the step log is exactly the eligible discoveries
in rank order, whatever the dispatch outcomes (the oracle and handler
results influence only the per-step `success`/`error`, never which steps
run). -/
theorem orchestrateLoop_map_steps
    (http : AgentRegistration → A2AMessage → A2AResponse) (uuid : Nat → String)
    (intent initiator : String) :
    ∀ (ds : List DiscoveryResult)
      (acc : A2ARegistry × Nat × List OrchStep × List (String × Option Value)),
      ((ds.foldl (orchestrateStep http uuid intent initiator) acc).2.2.1).map
          (fun s => (s.agent, s.action))
        = acc.2.2.1.map (fun s => (s.agent, s.action)) ++ ds.filterMap eligibleStep := by
  intro ds
  induction ds with
  | nil => intro acc; simp
  | cons d rest ih =>
      intro acc
      rw [List.foldl_cons, ih, List.filterMap_cons]
      obtain ⟨st, k, steps, results⟩ := acc
      unfold orchestrateStep eligibleStep
      cases hmc : d.matched_capabilities with
      | nil => simp
      | cons c cs =>
          cases hfc : d.agent.capabilities.find? (fun cap => cap.name = c) with
          | none => simp [hfc]
          | some capability =>
              simp [hfc, List.map_append]

/-- C4: for a non-empty discovery, the orchestration's overall `success` is
true iff some executed step succeeded, and the set of executed steps — one
per eligible ranked agent, in rank order — is the same for every dispatch
oracle and handler behaviour: a failed or errored step never prevents the
remaining ranked agents' steps from being executed. -/
theorem C4_theorem (st : A2ARegistry)
    (http : AgentRegistration → A2AMessage → A2AResponse) (uuid : Nat → String)
    (hits : List QueryHit) (intent initiator : String)
    (hne : discover_agents hits intent ≠ []) :
    ((orchestrate_agents st http uuid hits intent initiator).2.success = true ↔
      ∃ s ∈ (orchestrate_agents st http uuid hits intent initiator).2.steps,
        s.success = true) ∧
    ((orchestrate_agents st http uuid hits intent initiator).2.steps.map
        (fun s => (s.agent, s.action))
      = (discover_agents hits intent).filterMap eligibleStep) := by
  have hie : (discover_agents hits intent).isEmpty = false := by
    cases h : (discover_agents hits intent).isEmpty
    · rfl
    · exact absurd (List.isEmpty_iff.mp h) hne
  unfold orchestrate_agents
  dsimp only
  rw [hie]
  simp only [Bool.false_eq_true, if_false]
  constructor
  · simp [List.any_eq_true]
  · have h := orchestrateLoop_map_steps http uuid intent initiator
      (discover_agents hits intent) (st, 0, [], [])
    simpa using h

def capQuery : AgentCapability :=
  { name := "query data", description := "queries the dataset"
    parameters := [], output_type := "table", examples := [] }

def dataAgent1 : AgentRegistration :=
  { id := "data-1", name := "Data", type := AgentType.data
    description := "renewable data", capabilities := [capQuery]
    endpoint := "http://data-1", version := "1.0.0"
    status := AgentStatus.active, registered_at := 5, metadata := [] }

/-- C4 witness: one ranked agent whose capability `"query data"` matches the
intent, dispatched through an oracle that always fails — the step still
executes and overall success is the any-of of the step log. -/
theorem C4_witness :
    ((orchestrate_agents emptyA2ARegistry httpDown (fun k => toString k)
        [⟨"data-1", dataAgent1, 1⟩] "please query data now" "user").2.success = true ↔
      ∃ s ∈ (orchestrate_agents emptyA2ARegistry httpDown (fun k => toString k)
        [⟨"data-1", dataAgent1, 1⟩] "please query data now" "user").2.steps,
        s.success = true) ∧
    ((orchestrate_agents emptyA2ARegistry httpDown (fun k => toString k)
        [⟨"data-1", dataAgent1, 1⟩] "please query data now" "user").2.steps.map
        (fun s => (s.agent, s.action))
      = (discover_agents [⟨"data-1", dataAgent1, 1⟩] "please query data now").filterMap
          eligibleStep) :=
  C4_theorem emptyA2ARegistry httpDown (fun k => toString k)
    [⟨"data-1", dataAgent1, 1⟩] "please query data now" "user"
    (by simp [discover_agents])

/-! ## Claim C8 — fallback tool selection -/

def selTool : MCPTool :=
  { name := "plot", description := "abcd", parameters := [], returns := [], examples := [] }

def selAgent : UnifiedBaseAgent :=
  { name := "Sel", tools := [("plot", selTool)], executors := [] }

/-- C8 counterexample, double divergence from the claim: (1) the implemented
fallback matches keywords as **substrings** of the query, not by token-set
intersection — for query `"xabcdy"` the keyword `"abcd"` is a substring but
no token is shared, yet the tool is selected; (2) an **empty** array proposal
does not trigger the fallback at all — `select_tools_for_query` returns the
empty selection even where the spec's fallback would select a tool. -/
theorem C8_counterexample :
    _fallback_tool_selection selAgent "xabcdy" Option.none = [("plot", [])] ∧
    specFallbackSelection selAgent "xabcdy" Option.none = [] ∧
    select_tools_for_query selAgent true (Option.some []) "abcd" Option.none = [] ∧
    specFallbackSelection selAgent "abcd" Option.none = [("plot", [])] := by
  decide

/-- C8 (amended): the fallback runs when the proposal is not an array (e.g.
the reasoning call failed or returned non-JSON/`None`) or when semantic
selection is off — an array proposal, even empty, is converted item by item
with no fallback; and the fallback selects exactly those tools having a
keyword (tool name split on `'_'`, description split on whitespace) longer
than 3 characters occurring as a substring of the lowercased query, pairing
each with the caller's context. -/
theorem C8_theorem (ag : UnifiedBaseAgent) (query : String) (context : Option ParamMap) :
    (select_tools_for_query ag true Option.none query context
      = _fallback_tool_selection ag query context) ∧
    (∀ items, select_tools_for_query ag true (Option.some items) query context
      = items.filterMap (fun item => match item with
          | LLMPlanItem.valid tool parameters => Option.some (tool, parameters.getD [])
          | LLMPlanItem.malformed => Option.none)) ∧
    (select_tools_for_query ag false Option.none query context
      = _fallback_tool_selection ag query context) ∧
    (∀ p : String × ParamMap, p ∈ _fallback_tool_selection ag query context ↔
      ∃ tool, (p.1, tool) ∈ ag.tools ∧ p.2 = context.getD [] ∧
        ∃ keyword ∈ pySplitUnder (pyLower p.1) ++ pySplit (pyLower tool.description),
          keyword.length > 3 ∧ strIn keyword (pyLower query) = true) := by
  refine ⟨rfl, fun items => rfl, rfl, ?_⟩
  intro p
  constructor
  · intro hp
    simp only [_fallback_tool_selection, List.mem_map, List.mem_filter, List.any_eq_true,
      Bool.and_eq_true, decide_eq_true_eq] at hp
    obtain ⟨⟨n, t⟩, ⟨hmem, kw, hkw, hlen, hin⟩, rfl⟩ := hp
    exact ⟨t, hmem, rfl, kw, hkw, hlen, hin⟩
  · rintro ⟨tool, htool, hctx, kw, hkw, hlen, hin⟩
    simp only [_fallback_tool_selection, List.mem_map, List.mem_filter, List.any_eq_true,
      Bool.and_eq_true, decide_eq_true_eq]
    refine ⟨(p.1, tool), ⟨htool, kw, hkw, hlen, hin⟩, ?_⟩
    obtain ⟨p1, p2⟩ := p
    dsimp only at hctx ⊢
    rw [hctx]

/-- C9 witness: one send from the empty registry appends the message; the
default-limit and zero-limit views behave as stated. -/
theorem C9_witness :
    (send_message emptyA2ARegistry httpDown msg5).1.message_history
      = emptyA2ARegistry.message_history ++ [msg5] ∧
    (get_message_history emptyA2ARegistry 100 Option.none).length
      = min 100 emptyA2ARegistry.message_history.length ∧
    get_message_history emptyA2ARegistry 0 Option.none
      = emptyA2ARegistry.message_history := by
  have h := C9_theorem emptyA2ARegistry httpDown msg5 100
  exact ⟨h.1, h.2.1 (by omega), h.2.2⟩

/-- C7 witness: the amended conversion at the concrete distance-4 reply. -/
theorem C7_witness :
    (discover_agents [⟨"far", farAgent, 4⟩] "q").map (fun r => r.relevance_score)
      = [⟨"far", farAgent, 4⟩].map (fun h : QueryHit => 1 - h.distance / 2) :=
  C7_theorem [⟨"far", farAgent, 4⟩] "q"

/-- C8 witness: the amended characterisation at the concrete agent/query. -/
theorem C8_witness :
    select_tools_for_query selAgent true Option.none "xabcdy" Option.none
      = _fallback_tool_selection selAgent "xabcdy" Option.none :=
  (C8_theorem selAgent "xabcdy" Option.none).1
